import Mathlib

/-!
Verification of the PhonePe Pulse dashboard (`app.py`) against its
natural-language specification.

The Python source is shallowly embedded: pure helpers become Lean
functions over `String`, `ℚ` and association lists (Python `dict`s are
association lists with replace-or-append assignment, `dict.get` is
`List.lookup`), pandas data frames become lists of row structures, SQL
aggregates are modelled by their standard semantics (`SUM` over zero
rows is NULL, i.e. `none`), and the one heap-sensitive function is also
given a store-passing embedding.  Floats are modelled as rationals.
-/

/-! ## Python `str.strip` (whitespace trimming), modelled on `List Char` -/

/-- Whitespace characters removed by Python `str.strip()` (the ASCII ones;
the source tables and events only contain ASCII). -/
def isPySpace (c : Char) : Bool :=
  c == ' ' || c == '\t' || c == '\n' || c == '\r' ||
    c == Char.ofNat 11 || c == Char.ofNat 12

/-- Remove leading whitespace. -/
def lstripChars (l : List Char) : List Char := l.dropWhile isPySpace

/-- Remove trailing whitespace. -/
def rstripChars (l : List Char) : List Char := (l.reverse.dropWhile isPySpace).reverse

/-- Remove leading and trailing whitespace. -/
def stripChars (l : List Char) : List Char := rstripChars (lstripChars l)

/-- Python `s.strip()`. -/
def pyStrip (s : String) : String := ⟨stripChars s.data⟩

theorem dropWhile_dropWhile_eq (p : α → Bool) (l : List α) :
    (l.dropWhile p).dropWhile p = l.dropWhile p := by
  induction l with
  | nil => rfl
  | cons a t ih =>
    by_cases h : p a
    · simp [List.dropWhile_cons, h, ih]
    · simp [List.dropWhile_cons, h]

theorem dropWhile_eq_self_of_head (p : α → Bool) (l : List α)
    (h : ∀ c, l.head? = some c → p c = false) : l.dropWhile p = l := by
  cases l with
  | nil => rfl
  | cons a t => simp [List.dropWhile_cons, h a rfl]

theorem head?_dropWhile_false (p : α → Bool) (l : List α) (c : α)
    (h : (l.dropWhile p).head? = some c) : p c = false := by
  have h2 := List.head?_dropWhile_not p l
  rw [h] at h2
  exact h2

/-- A string whose head is not whitespace is unchanged by a further
left strip after a right strip. -/
theorem lstrip_rstrip (l : List Char)
    (hl : ∀ c, l.head? = some c → isPySpace c = false) :
    lstripChars (rstripChars l) = rstripChars l := by
  apply dropWhile_eq_self_of_head
  intro c hc
  rw [rstripChars, List.head?_reverse] at hc
  have hm : (l.reverse.takeWhile isPySpace ++ l.reverse.dropWhile isPySpace).getLast?
      = some c := by
    rw [List.getLast?_append, hc]; rfl
  rw [List.takeWhile_append_dropWhile, List.getLast?_reverse] at hm
  exact hl c hm

theorem rstripChars_idem (l : List Char) : rstripChars (rstripChars l) = rstripChars l := by
  simp [rstripChars, List.reverse_reverse, dropWhile_dropWhile_eq]

theorem stripChars_idem (l : List Char) : stripChars (stripChars l) = stripChars l := by
  have h1 : lstripChars (stripChars l) = stripChars l :=
    lstrip_rstrip (lstripChars l) (fun c hc => head?_dropWhile_false isPySpace l c hc)
  show rstripChars (lstripChars (stripChars l)) = stripChars l
  rw [h1]
  show rstripChars (rstripChars (lstripChars l)) = stripChars l
  rw [rstripChars_idem]
  rfl

theorem pyStrip_idem (s : String) : pyStrip (pyStrip s) = pyStrip s :=
  congrArg String.mk (stripChars_idem s.data)

/-! ## Name normalization (DB canonical name <-> GeoJSON ST_NM), app.py 46-62 -/

/-- The static `NAME_TO_ST_NM` mapping table, app.py lines 46-53. -/
def NAME_TO_ST_NM : List (String × String) := [
  ("Andaman And Nicobar", "Andaman & Nicobar Islands"),
  ("Dadra And Nagar Haveli And Daman Diu", "Dadra and Nagar Haveli and Daman and Diu"),
  ("Nct Of Delhi", "Delhi"),
  ("Jammu And Kashmir", "Jammu & Kashmir"),
  ("Pondicherry", "Puducherry"),
  ("Orissa", "Odisha")]

/-- `to_st_nm`, app.py 54-56: strip, table lookup, identity fallback.
The non-string passthrough branch is outside this typed embedding. -/
def to_st_nm (s : String) : String :=
  (NAME_TO_ST_NM.lookup (pyStrip s)).getD (pyStrip s)

/-- `ST_NM_TO_NAME = {v: k for k, v in NAME_TO_ST_NM.items()}`, app.py 59.
The forward table is injective, so the swapped association list has the
same lookup behaviour as the Python dict comprehension. -/
def ST_NM_TO_NAME : List (String × String) :=
  NAME_TO_ST_NM.map (fun kv => (kv.2, kv.1))

/-- `stnm_to_db`, app.py 60-62. -/
def stnm_to_db (s : String) : String :=
  (ST_NM_TO_NAME.lookup (pyStrip s)).getD (pyStrip s)

/-- A successful association-list lookup returns a pair of the list. -/
theorem lookup_mem {β : Type} {d : List (String × β)} {k : String} {v : β}
    (h : d.lookup k = some v) : (k, v) ∈ d := by
  induction d with
  | nil => simp [List.lookup] at h
  | cons a t ih =>
    rcases a with ⟨k1, v1⟩
    by_cases hk : k = k1
    · subst hk
      rw [List.lookup_cons_self] at h
      cases h
      exact List.mem_cons_self _ _
    · have hne : (k == k1) = false := by simpa using hk
      rw [List.lookup_cons, hne] at h
      exact List.mem_cons_of_mem _ (ih h)

/-- Claim C9: both name maps are idempotent: for every string `s`,
`to_st_nm (to_st_nm s) = to_st_nm s` and
`stnm_to_db (stnm_to_db s) = stnm_to_db s`, because no output of either
table is a key of that same table and whitespace trimming is idempotent. -/
theorem name_maps_idempotent (s : String) :
    to_st_nm (to_st_nm s) = to_st_nm s ∧ stnm_to_db (stnm_to_db s) = stnm_to_db s := by
  constructor
  · unfold to_st_nm
    cases h : NAME_TO_ST_NM.lookup (pyStrip s) with
    | none =>
      simp only [Option.getD_none]
      rw [pyStrip_idem, h]
      rfl
    | some v =>
      simp only [Option.getD_some]
      have hmem := lookup_mem h
      simp only [NAME_TO_ST_NM, List.mem_cons, List.not_mem_nil, or_false,
        Prod.mk.injEq] at hmem
      rcases hmem with ⟨-, rfl⟩ | ⟨-, rfl⟩ | ⟨-, rfl⟩ | ⟨-, rfl⟩ | ⟨-, rfl⟩ | ⟨-, rfl⟩ <;> decide
  · unfold stnm_to_db
    cases h : ST_NM_TO_NAME.lookup (pyStrip s) with
    | none =>
      simp only [Option.getD_none]
      rw [pyStrip_idem, h]
      rfl
    | some v =>
      simp only [Option.getD_some]
      have hmem := lookup_mem h
      simp only [ST_NM_TO_NAME, NAME_TO_ST_NM, List.map_cons, List.map_nil,
        List.mem_cons, List.not_mem_nil, or_false, Prod.mk.injEq] at hmem
      rcases hmem with ⟨-, rfl⟩ | ⟨-, rfl⟩ | ⟨-, rfl⟩ | ⟨-, rfl⟩ | ⟨-, rfl⟩ | ⟨-, rfl⟩ <;> decide

/-- Claim C3: for every canonical name `x` (whitespace-trimmed, as all
canonical names in the data store are) that is not itself a boundary-side
key of the inverse table, `stnm_to_db (to_st_nm x) = x`; in particular the
round-trip is the identity for every name absent from the mapping table. -/
theorem roundtrip_canonical (x : String) (hx : pyStrip x = x)
    (hk : ST_NM_TO_NAME.lookup x = none) : stnm_to_db (to_st_nm x) = x := by
  unfold to_st_nm
  cases h : NAME_TO_ST_NM.lookup (pyStrip x) with
  | none =>
    simp only [Option.getD_none]
    unfold stnm_to_db
    rw [pyStrip_idem, hx, hk]
    simp [hx]
  | some v =>
    simp only [Option.getD_some]
    have hmem := lookup_mem h
    rw [hx] at hmem
    simp only [NAME_TO_ST_NM, List.mem_cons, List.not_mem_nil, or_false,
      Prod.mk.injEq] at hmem
    rcases hmem with ⟨rfl, rfl⟩ | ⟨rfl, rfl⟩ | ⟨rfl, rfl⟩ | ⟨rfl, rfl⟩ | ⟨rfl, rfl⟩ | ⟨rfl, rfl⟩ <;>
      decide

/-- Witness for C3: the round-trip at the mapped name "Orissa" and at the
unmapped name "Kerala". -/
theorem roundtrip_canonical_witness :
    (pyStrip "Orissa" = "Orissa" ∧ ST_NM_TO_NAME.lookup "Orissa" = none ∧
      stnm_to_db (to_st_nm "Orissa") = "Orissa") ∧
    (pyStrip "Kerala" = "Kerala" ∧ ST_NM_TO_NAME.lookup "Kerala" = none ∧
      stnm_to_db (to_st_nm "Kerala") = "Kerala") :=
  ⟨⟨by decide, by decide, roundtrip_canonical "Orissa" (by decide) (by decide)⟩,
   ⟨by decide, by decide, roundtrip_canonical "Kerala" (by decide) (by decide)⟩⟩

/-! ## Selection events (pydeck payloads), app.py 205-241

Events are JSON-like Python values.  The `hasattr(event, "selection")`
branch of the source concerns the framework's attribute-bearing event
object, whose `.selection` field behaves exactly like the dict field read
in the `isinstance(event, dict)` branch; events are embedded as values. -/

inductive PyVal where
  | pynone : PyVal
  | pybool : Bool → PyVal
  | pynum : ℚ → PyVal
  | pystr : String → PyVal
  | pylist : List PyVal → PyVal
  | pydict : List (String × PyVal) → PyVal

/-- Python truthiness for the embedded values. -/
def pyTruthy : PyVal → Bool
  | .pynone => false
  | .pybool b => b
  | .pynum q => q != 0
  | .pystr s => s != ""
  | .pylist l => !l.isEmpty
  | .pydict d => !d.isEmpty

/-- Python `a or b`. -/
def pyOr (a b : PyVal) : PyVal := if pyTruthy a then a else b

/-- Python `d.get(k)` (missing key gives `None`). -/
def pyGetD (d : List (String × PyVal)) (k : String) : PyVal :=
  (d.lookup k).getD .pynone

/-- app.py 207-213: `sel = event.get("selection", event)` for a dict
event, `None` otherwise; then `if not isinstance(sel, dict): return None`. -/
def sel_of (event : PyVal) : Option (List (String × PyVal)) :=
  match event with
  | .pydict d =>
    match (d.lookup "selection").getD (.pydict d) with
    | .pydict sd => some sd
    | _ => none
  | _ => none

/-- app.py 221-225: scan `o.values()` for the first value that is a
nonempty list (taken whole) or a dict (wrapped in a singleton list). -/
def scan_dict_values : List PyVal → List PyVal
  | [] => []
  | v :: rest =>
    match v with
    | .pylist (a :: tl) => a :: tl
    | .pydict dd => [.pydict dd]
    | _ => scan_dict_values rest

/-- app.py 215-229: extract the candidate object list from the selection. -/
def objs_of (sel : List (String × PyVal)) : List PyVal :=
  match sel.lookup "objects" with
  | some o =>
    match o with
    | .pylist l => l
    | .pydict od => scan_dict_values (od.map (fun kv => kv.2))
    | _ => []
  | none =>
    match sel.lookup "object" with
    | some o => [o]
    | none => []

/-- app.py 231-236: unwrap a nested `"object"` entry, then read the
`"properties"` mapping, requiring it to be a dict. -/
def props_of (obj : PyVal) : Option (List (String × PyVal)) :=
  let obj2 := match obj with
    | .pydict d =>
      match d.lookup "object" with
      | some inner => inner
      | none => .pydict d
    | _ => obj
  match obj2 with
  | .pydict d2 =>
    match d2.lookup "properties" with
    | some (.pydict p) => some p
    | _ => none
  | _ => none

/-- app.py 238-241: the three name aliases chained with Python `or`,
then `if isinstance(st_nm, str) and st_nm.strip(): return stnm_to_db(...)`. -/
def name_of_props (p : List (String × PyVal)) : Option String :=
  match pyOr (pyGetD p "ST_NM") (pyOr (pyGetD p "state") (pyGetD p "name")) with
  | .pystr s => if pyStrip s ≠ "" then some (stnm_to_db (pyStrip s)) else none
  | _ => none

/-- `get_selected_state_from_event`, app.py 205-241. -/
def get_selected_state_from_event (event : PyVal) : Option String :=
  match sel_of event with
  | none => none
  | some sel =>
    match (objs_of sel).head? with
    | none => none
    | some obj =>
      match props_of obj with
      | none => none
      | some p => name_of_props p

/-- Claim C6: the event
`{selection:{objects:[{object:{properties:{ST_NM:"Odisha"}}}]}}` resolves
through the nested structure and the inverse name mapping to the
canonical name "Orissa". -/
theorem resolve_odisha_event :
    get_selected_state_from_event
      (.pydict [("selection", .pydict [("objects", .pylist
        [.pydict [("object", .pydict [("properties", .pydict
          [("ST_NM", .pystr "Odisha")])])]])])])
      = some "Orissa" := by
  decide

/-- Claim C2 counterexample: an event missing the "selection" key is not
always resolved to `none`: the source falls back to
`event.get("selection", event)`, treating the event itself as the
selection, so this event without a "selection" key yields a state. -/
theorem resolve_missing_selection_cex :
    (([("objects", PyVal.pylist [.pydict [("properties", .pydict
        [("ST_NM", .pystr "Kerala")])]])] : List (String × PyVal)).lookup
        "selection").isNone = true ∧
    get_selected_state_from_event
      (.pydict [("objects", .pylist [.pydict [("properties", .pydict
        [("ST_NM", .pystr "Kerala")])]])])
      = some "Kerala" := by
  constructor
  · rfl
  · decide

/-- Claim C2 (amended): `get_selected_state_from_event` returns `none`
for an empty event; for an event missing the "selection" key it treats
the event itself as the selection, so it returns `none` whenever that
fallback yields no objects — in particular whenever the event also lacks
"objects" and "object" keys; it returns `none` for every selection whose
extracted nested object has no "properties" mapping; and for every
properties mapping lacking all three recognized name aliases (ST_NM,
state, name).  In each case it returns `none` rather than raising. -/
theorem resolve_malformed_none :
    (get_selected_state_from_event (.pydict []) = none)
    ∧ (∀ d : List (String × PyVal), d.lookup "selection" = none →
        d.lookup "objects" = none → d.lookup "object" = none →
        get_selected_state_from_event (.pydict d) = none)
    ∧ (∀ ev sel obj, sel_of ev = some sel → (objs_of sel).head? = some obj →
        props_of obj = none → get_selected_state_from_event ev = none)
    ∧ (∀ ev sel obj p, sel_of ev = some sel → (objs_of sel).head? = some obj →
        props_of obj = some p → p.lookup "ST_NM" = none →
        p.lookup "state" = none → p.lookup "name" = none →
        get_selected_state_from_event ev = none) := by
  refine ⟨by decide, ?_, ?_, ?_⟩
  · intro d h1 h2 h3
    have hs : sel_of (.pydict d) = some d := by
      simp only [sel_of, h1, Option.getD_none]
    have ho : objs_of d = [] := by
      simp only [objs_of, h2, h3]
    simp only [get_selected_state_from_event, hs, ho, List.head?_nil]
  · intro ev sel obj h1 h2 h3
    simp only [get_selected_state_from_event, h1, h2, h3]
  · intro ev sel obj p h1 h2 h3 h4 h5 h6
    simp only [get_selected_state_from_event, h1, h2, h3]
    show name_of_props p = none
    unfold name_of_props pyGetD
    rw [h4, h5, h6]
    rfl

/-- Witness for C2 (amended): each malformed shape instantiated at a
concrete event. -/
theorem resolve_malformed_none_witness :
    (get_selected_state_from_event (.pydict [("foo", .pynum 1)]) = none)
    ∧ (get_selected_state_from_event
        (.pydict [("selection", .pydict [("objects", .pylist
          [.pydict [("x", .pynum 2)]])])]) = none)
    ∧ (get_selected_state_from_event
        (.pydict [("selection", .pydict [("objects", .pylist
          [.pydict [("properties", .pydict [("foo", .pystr "bar")])]])])])
        = none) := by
  refine ⟨?_, ?_, ?_⟩
  · exact resolve_malformed_none.2.1 [("foo", .pynum 1)] rfl rfl rfl
  · exact resolve_malformed_none.2.2.1 _ _ (.pydict [("x", .pynum 2)]) rfl rfl rfl
  · exact resolve_malformed_none.2.2.2 _ _ (.pydict [("properties", .pydict
      [("foo", .pystr "bar")])]) [("foo", .pystr "bar")] rfl rfl rfl rfl rfl rfl

/-! ## Geometry enrichment (`build_feature_collection`), app.py 184-203

A GeoJSON feature is its `properties.ST_NM` name, the numeric properties
attached by enrichment, and an opaque payload standing for the geometry
and the remaining content.  `json.loads(json.dumps(f))` is a deep copy,
i.e. the identity on the embedded value. -/

structure Feature where
  st_nm : String
  props : List (String × ℚ)
  geom : Nat
deriving DecidableEq

/-- One row of `df_plot`: a state name and a numeric value. -/
structure MetricRow where
  state : String
  value : ℚ
deriving DecidableEq

structure FeatureCollection where
  features : List Feature
deriving DecidableEq

/-- Python `float(v or 0)` on a float value. -/
def pyOrZero (q : ℚ) : ℚ := if q = 0 then 0 else q

/-- Python `q or 1.0` on a float (app.py 188). -/
def pyOrOne (q : ℚ) : ℚ := if q = 0 then 1 else q

/-- Python dict key assignment `d[k] = v`: replace in place, else append. -/
def dictSet (d : List (String × ℚ)) (k : String) (v : ℚ) : List (String × ℚ) :=
  if (d.lookup k).isSome then
    d.map (fun kv => if kv.1 == k then (kv.1, v) else kv)
  else d ++ [(k, v)]

/-- app.py 185: `vals = {to_st_nm(r["state"]): float(r["value"] or 0) ...}`,
a dict comprehension in row order with override on duplicate keys. -/
def valsOf (df_plot : List MetricRow) : List (String × ℚ) :=
  df_plot.foldl (fun acc r => dictSet acc (to_st_nm r.state) (pyOrZero r.value)) []

/-- `min(vals.values()) if vals else 0.0`, app.py 186. -/
def vminOf : List ℚ → ℚ
  | [] => 0
  | x :: xs => xs.foldl min x

/-- `max(vals.values()) if vals else 1.0`, app.py 187. -/
def vmaxOf : List ℚ → ℚ
  | [] => 1
  | x :: xs => xs.foldl max x

def HEIGHT_MIN : ℚ := 200000

def HEIGHT_SPAN : ℚ := 700000

/-- The value column of the `vals` dict. -/
def valsValues (rows : List MetricRow) : List ℚ := (valsOf rows).map (fun kv => kv.2)

/-- `vmin`, app.py 186. -/
def vminR (rows : List MetricRow) : ℚ := vminOf (valsValues rows)

/-- `vmax`, app.py 187. -/
def vmaxR (rows : List MetricRow) : ℚ := vmaxOf (valsValues rows)

/-- `rng = (vmax - vmin) or 1.0`, app.py 188. -/
def rngR (rows : List MetricRow) : ℚ := pyOrOne (vmaxR rows - vminR rows)

/-- app.py 192-202, one loop iteration: deep-copy the feature and attach
`metric_value`, `height` and the constant fill color properties. -/
def enrich_feature (vals : List (String × ℚ)) (vmin rng : ℚ) (f : Feature) : Feature :=
  let v := (vals.lookup f.st_nm).getD 0
  let norm := (v - vmin) / rng
  { f with props :=
      dictSet (dictSet (dictSet (dictSet (dictSet (dictSet f.props
        "metric_value" v)
        "height" (HEIGHT_MIN + norm * HEIGHT_SPAN))
        "fill_r" 66) "fill_g" 135) "fill_b" 245) "fill_a" 180 }

/-- `build_feature_collection`, app.py 184-203. -/
def build_feature_collection (geo : List Feature) (rows : List MetricRow) : FeatureCollection :=
  { features := geo.map (enrich_feature (valsOf rows) (vminR rows) (rngR rows)) }

def featureMetric (f : Feature) : Option ℚ := f.props.lookup "metric_value"

def featureHeight (f : Feature) : Option ℚ := f.props.lookup "height"

theorem lookup_map_replace {d : List (String × ℚ)} {k : String} {v : ℚ}
    (h : (d.lookup k).isSome) :
    (d.map (fun kv => if kv.1 == k then (kv.1, v) else kv)).lookup k = some v := by
  induction d with
  | nil => simp at h
  | cons a t ih =>
    rcases a with ⟨a1, a2⟩
    by_cases hak : a1 = k
    · subst hak
      simp only [List.map_cons, beq_self_eq_true, if_pos, List.lookup_cons_self]
    · have hne : (a1 == k) = false := by simpa using hak
      have hne2 : (k == a1) = false := by simpa using Ne.symm hak
      simp only [List.map_cons, hne, Bool.false_eq_true, if_false, List.lookup_cons, hne2] at h ⊢
      exact ih h

theorem lookup_map_replace_other {d : List (String × ℚ)} {k k1 : String} {v : ℚ}
    (h : k1 ≠ k) :
    (d.map (fun kv => if kv.1 == k then (kv.1, v) else kv)).lookup k1 = d.lookup k1 := by
  induction d with
  | nil => rfl
  | cons a t ih =>
    rcases a with ⟨a1, a2⟩
    by_cases hak : a1 = k
    · subst hak
      have hne : (k1 == a1) = false := by simpa using h
      simp only [List.map_cons, beq_self_eq_true, if_pos, List.lookup_cons, hne]
      exact ih
    · have hne : (a1 == k) = false := by simpa using hak
      simp only [List.map_cons, hne, Bool.false_eq_true, if_false, List.lookup_cons]
      rw [ih]

theorem lookup_dictSet_self {d : List (String × ℚ)} {k : String} {v : ℚ} :
    (dictSet d k v).lookup k = some v := by
  unfold dictSet
  split
  · next h => exact lookup_map_replace h
  · next h =>
    rw [List.lookup_append]
    have : d.lookup k = none := by
      cases hd : d.lookup k
      · rfl
      · rw [hd] at h; simp at h
    rw [this, List.lookup_cons_self]
    rfl

theorem lookup_dictSet_other {d : List (String × ℚ)} {k k1 : String} {v : ℚ}
    (h : k1 ≠ k) : (dictSet d k v).lookup k1 = d.lookup k1 := by
  unfold dictSet
  split
  · exact lookup_map_replace_other h
  · rw [List.lookup_append]
    have hne : (k1 == k) = false := by simpa using h
    simp [List.lookup_cons, hne]

theorem featureMetric_enrich (vals : List (String × ℚ)) (vmin rng : ℚ) (f : Feature) :
    featureMetric (enrich_feature vals vmin rng f) = some ((vals.lookup f.st_nm).getD 0) := by
  unfold featureMetric enrich_feature
  rw [lookup_dictSet_other (by decide), lookup_dictSet_other (by decide),
    lookup_dictSet_other (by decide), lookup_dictSet_other (by decide),
    lookup_dictSet_other (by decide), lookup_dictSet_self]

theorem featureHeight_enrich (vals : List (String × ℚ)) (vmin rng : ℚ) (f : Feature) :
    featureHeight (enrich_feature vals vmin rng f)
      = some (HEIGHT_MIN + (((vals.lookup f.st_nm).getD 0 - vmin) / rng) * HEIGHT_SPAN) := by
  unfold featureHeight enrich_feature
  rw [lookup_dictSet_other (by decide), lookup_dictSet_other (by decide),
    lookup_dictSet_other (by decide), lookup_dictSet_other (by decide),
    lookup_dictSet_self]

theorem foldl_min_le_init (xs : List ℚ) (x : ℚ) : xs.foldl min x ≤ x := by
  induction xs generalizing x with
  | nil => exact le_refl x
  | cons y ys ih => exact le_trans (ih (min x y)) (min_le_left x y)

theorem foldl_min_le_mem (xs : List ℚ) (x a : ℚ) (ha : a ∈ xs) : xs.foldl min x ≤ a := by
  induction xs generalizing x with
  | nil => simp at ha
  | cons y ys ih =>
    rcases List.mem_cons.1 ha with rfl | hmem
    · exact le_trans (foldl_min_le_init ys (min x a)) (min_le_right x a)
    · exact ih (min x y) hmem

theorem le_foldl_max_init (xs : List ℚ) (x : ℚ) : x ≤ xs.foldl max x := by
  induction xs generalizing x with
  | nil => exact le_refl x
  | cons y ys ih => exact le_trans (le_max_left x y) (ih (max x y))

theorem le_foldl_max_mem (xs : List ℚ) (x a : ℚ) (ha : a ∈ xs) : a ≤ xs.foldl max x := by
  induction xs generalizing x with
  | nil => simp at ha
  | cons y ys ih =>
    rcases List.mem_cons.1 ha with rfl | hmem
    · exact le_trans (le_max_right x a) (le_foldl_max_init ys (max x a))
    · exact ih (max x y) hmem

theorem vminOf_le_mem {l : List ℚ} {a : ℚ} (h : a ∈ l) : vminOf l ≤ a := by
  cases l with
  | nil => simp at h
  | cons x xs =>
    rcases List.mem_cons.1 h with rfl | hmem
    · exact foldl_min_le_init xs a
    · exact foldl_min_le_mem xs x a hmem

theorem le_vmaxOf_mem {l : List ℚ} {a : ℚ} (h : a ∈ l) : a ≤ vmaxOf l := by
  cases l with
  | nil => simp at h
  | cons x xs =>
    rcases List.mem_cons.1 h with rfl | hmem
    · exact le_foldl_max_init xs a
    · exact le_foldl_max_mem xs x a hmem

theorem pyOrOne_sub_pos (l : List ℚ) : 0 < pyOrOne (vmaxOf l - vminOf l) := by
  cases l with
  | nil => norm_num [vminOf, vmaxOf, pyOrOne]
  | cons x xs =>
    have h1 : vminOf (x :: xs) ≤ x := foldl_min_le_init xs x
    have h2 : x ≤ vmaxOf (x :: xs) := le_foldl_max_init xs x
    have hd : 0 ≤ vmaxOf (x :: xs) - vminOf (x :: xs) := by linarith
    unfold pyOrOne
    split
    · norm_num
    · next h => exact lt_of_le_of_ne hd (Ne.symm h)

theorem rngR_pos (rows : List MetricRow) : 0 < rngR rows :=
  pyOrOne_sub_pos (valsValues rows)

theorem height_formula_mono (rows : List MetricRow) (v1 v2 : ℚ) (h : v1 ≤ v2) :
    HEIGHT_MIN + (v1 - vminR rows) / rngR rows * HEIGHT_SPAN ≤
      HEIGHT_MIN + (v2 - vminR rows) / rngR rows * HEIGHT_SPAN := by
  have hrng : 0 < rngR rows := rngR_pos rows
  have hc : 0 ≤ (rngR rows)⁻¹ := inv_nonneg.2 (le_of_lt hrng)
  have hd : (v1 - vminR rows) * (rngR rows)⁻¹ ≤ (v2 - vminR rows) * (rngR rows)⁻¹ :=
    mul_le_mul_of_nonneg_right (sub_le_sub_right h (vminR rows)) hc
  rw [div_eq_mul_inv, div_eq_mul_inv]
  have := mul_le_mul_of_nonneg_right hd
    (show (0:ℚ) ≤ HEIGHT_SPAN by norm_num [HEIGHT_SPAN])
  linarith

theorem height_formula_bounds (rows : List MetricRow) (v : ℚ)
    (h1 : vminR rows ≤ v) (h2 : v ≤ vmaxR rows) :
    HEIGHT_MIN ≤ HEIGHT_MIN + (v - vminR rows) / rngR rows * HEIGHT_SPAN ∧
      HEIGHT_MIN + (v - vminR rows) / rngR rows * HEIGHT_SPAN ≤ HEIGHT_MIN + HEIGHT_SPAN := by
  have hs0 : (0:ℚ) ≤ HEIGHT_SPAN := by norm_num [HEIGHT_SPAN]
  by_cases hz : vmaxR rows - vminR rows = 0
  · have hr1 : rngR rows = 1 := by rw [rngR, pyOrOne, if_pos hz]
    have hveq : v = vminR rows := by linarith
    rw [hr1, hveq, sub_self, zero_div, zero_mul, add_zero]
    exact ⟨le_refl _, by linarith⟩
  · have hr2 : rngR rows = vmaxR rows - vminR rows := by rw [rngR, pyOrOne, if_neg hz]
    have hpos : 0 < vmaxR rows - vminR rows := lt_of_le_of_ne (by linarith) (Ne.symm hz)
    have hnorm0 : 0 ≤ (v - vminR rows) / rngR rows :=
      div_nonneg (by linarith) (by rw [hr2]; linarith)
    have hnorm1 : (v - vminR rows) / rngR rows ≤ 1 := by
      rw [hr2, div_le_one hpos]
      linarith
    constructor
    · linarith [mul_nonneg hnorm0 hs0]
    · have := mul_le_mul_of_nonneg_right hnorm1 hs0
      rw [one_mul] at this
      linarith

theorem mem_build {geo : List Feature} {rows : List MetricRow} {g : Feature}
    (hg : g ∈ (build_feature_collection geo rows).features) :
    ∃ f ∈ geo, g = enrich_feature (valsOf rows) (vminR rows) (rngR rows) f := by
  simp only [build_feature_collection, List.mem_map] at hg
  rcases hg with ⟨f, hf, rfl⟩
  exact ⟨f, hf, rfl⟩

/-! Test fixtures: small boundary geometries and metric tables. -/

def geoABC : List Feature := [⟨"A", [], 0⟩, ⟨"B", [], 1⟩, ⟨"C", [], 2⟩]

def geoA : List Feature := [⟨"A", [], 0⟩]

def rowsAB : List MetricRow := [⟨"A", 10⟩, ⟨"B", 20⟩]

def rowsA5 : List MetricRow := [⟨"A", 5⟩]

def rowsA7 : List MetricRow := [⟨"A", 7⟩]

/-- Claim C1 counterexample: with metricRows {A:10, B:20} (which has a
nonzero value) and a boundary geometry containing a region C absent from
metricRows, the produced feature for C has height -500000 < heightMin:
the min/max are taken over metricRows values only, and the absent
region's metricValue 0 lies below that range. -/
theorem build_height_below_min_cex :
    (∃ r ∈ rowsAB, pyOrZero r.value ≠ 0) ∧
    ∃ g ∈ (build_feature_collection geoABC rowsAB).features,
      featureHeight g = some (-500000) ∧ ((-500000 : ℚ) < HEIGHT_MIN) := by
  have hvals : valsOf rowsAB = [("A", 10), ("B", 20)] := by decide
  have hvv : valsValues rowsAB = [10, 20] := by rw [valsValues, hvals]; rfl
  have hvmin : vminR rowsAB = 10 := by rw [vminR, hvv]; norm_num [vminOf, min_def]
  have hvmax : vmaxR rowsAB = 20 := by rw [vmaxR, hvv]; norm_num [vmaxOf, max_def]
  have hrng : rngR rowsAB = 10 := by rw [rngR, hvmin, hvmax]; norm_num [pyOrOne]
  have hlook : (valsOf rowsAB).lookup (Feature.mk "C" [] 2).st_nm = none := by decide
  refine ⟨⟨⟨"A", 10⟩, by decide, by decide⟩, ?_⟩
  refine ⟨enrich_feature (valsOf rowsAB) (vminR rowsAB) (rngR rowsAB) ⟨"C", [], 2⟩, ?_, ?_, ?_⟩
  · exact List.mem_map_of_mem _ (by decide : (⟨"C", [], 2⟩ : Feature) ∈ geoABC)
  · rw [featureHeight_enrich, hlook, hvmin, hrng]
    norm_num [HEIGHT_MIN, HEIGHT_SPAN]
  · norm_num [HEIGHT_MIN]

/-- Claim C1 (amended): for every metricRows set with at least one nonzero
value, every produced feature's height is finite and height is
non-decreasing in metricValue across the result set; the bound
[heightMin, heightMin+heightSpan] holds for every feature whose
metricValue is one of the metricRows values — in particular for every
feature whose region appears in metricRows — but a geometry feature
absent from metricRows receives metricValue 0, which can lie outside
[min, max] of the metricRows values, and its height then falls below
heightMin (see the counterexample). -/
theorem build_height_monotone_and_bounded (geo : List Feature) (rows : List MetricRow)
    (hnz : ∃ r ∈ rows, pyOrZero r.value ≠ 0) :
    (∀ g1 ∈ (build_feature_collection geo rows).features,
      ∀ g2 ∈ (build_feature_collection geo rows).features,
      ∀ v1 v2 ht1 ht2, featureMetric g1 = some v1 → featureMetric g2 = some v2 →
        featureHeight g1 = some ht1 → featureHeight g2 = some ht2 →
        v1 ≤ v2 → ht1 ≤ ht2)
    ∧ (∀ g ∈ (build_feature_collection geo rows).features,
      ∀ v ht, featureMetric g = some v → featureHeight g = some ht →
        v ∈ valsValues rows →
        HEIGHT_MIN ≤ ht ∧ ht ≤ HEIGHT_MIN + HEIGHT_SPAN) := by
  constructor
  · intro g1 hg1 g2 hg2 v1 v2 ht1 ht2 hm1 hm2 hh1 hh2 hv
    obtain ⟨f1, hf1, rfl⟩ := mem_build hg1
    obtain ⟨f2, hf2, rfl⟩ := mem_build hg2
    rw [featureMetric_enrich] at hm1 hm2
    rw [featureHeight_enrich] at hh1 hh2
    obtain rfl := Option.some.inj hm1
    obtain rfl := Option.some.inj hm2
    obtain rfl := Option.some.inj hh1
    obtain rfl := Option.some.inj hh2
    exact height_formula_mono rows _ _ hv
  · intro g hg v ht hm hh hmemv
    obtain ⟨f, hf, rfl⟩ := mem_build hg
    rw [featureMetric_enrich] at hm
    rw [featureHeight_enrich] at hh
    obtain rfl := Option.some.inj hm
    obtain rfl := Option.some.inj hh
    exact height_formula_bounds rows _ (vminOf_le_mem hmemv) (le_vmaxOf_mem hmemv)

/-- Witness for C1 (amended): the theorem instantiated at a concrete
geometry and metric table with a nonzero value. -/
theorem build_height_monotone_and_bounded_witness :
    (∃ r ∈ rowsAB, pyOrZero r.value ≠ 0) ∧
    ((∀ g1 ∈ (build_feature_collection geoABC rowsAB).features,
      ∀ g2 ∈ (build_feature_collection geoABC rowsAB).features,
      ∀ v1 v2 ht1 ht2, featureMetric g1 = some v1 → featureMetric g2 = some v2 →
        featureHeight g1 = some ht1 → featureHeight g2 = some ht2 →
        v1 ≤ v2 → ht1 ≤ ht2)
    ∧ (∀ g ∈ (build_feature_collection geoABC rowsAB).features,
      ∀ v ht, featureMetric g = some v → featureHeight g = some ht →
        v ∈ valsValues rowsAB →
        HEIGHT_MIN ≤ ht ∧ ht ≤ HEIGHT_MIN + HEIGHT_SPAN)) :=
  ⟨by decide, build_height_monotone_and_bounded geoABC rowsAB (by decide)⟩

theorem mem_values_dictSet {d : List (String × ℚ)} {k : String} {v a : ℚ}
    (h : a ∈ (dictSet d k v).map (fun kv => kv.2)) :
    a ∈ d.map (fun kv => kv.2) ∨ a = v := by
  unfold dictSet at h
  split at h
  · rcases List.mem_map.1 h with ⟨kv, hkv, rfl⟩
    rcases List.mem_map.1 hkv with ⟨kv0, hkv0, rfl⟩
    by_cases hk : kv0.1 = k
    · right
      simp [hk]
    · left
      have hne : (kv0.1 == k) = false := by simpa using hk
      simp only [hne, Bool.false_eq_true, if_false]
      exact List.mem_map_of_mem _ hkv0
  · rw [List.map_append] at h
    rcases List.mem_append.1 h with h1 | h2
    · exact Or.inl h1
    · right
      simpa using h2

theorem values_foldl_dictSet_const (rows : List MetricRow) (v0 : ℚ) :
    ∀ acc : List (String × ℚ),
      (∀ b ∈ acc.map (fun kv => kv.2), b = v0) →
      (∀ r ∈ rows, pyOrZero r.value = v0) →
      ∀ a ∈ (rows.foldl (fun acc r => dictSet acc (to_st_nm r.state) (pyOrZero r.value))
          acc).map (fun kv => kv.2), a = v0 := by
  induction rows with
  | nil => intro acc hacc _ a ha; exact hacc a ha
  | cons r rs ih =>
    intro acc hacc hrows a ha
    simp only [List.foldl_cons] at ha
    refine ih _ ?_ (fun r2 hr2 => hrows r2 (List.mem_cons_of_mem _ hr2)) a ha
    intro b hb
    rcases mem_values_dictSet hb with h1 | h2
    · exact hacc b h1
    · rw [h2]
      exact hrows r (List.mem_cons_self _ _)

theorem mem_valsValues_const {rows : List MetricRow} {v0 : ℚ}
    (heq : ∀ r ∈ rows, pyOrZero r.value = v0) :
    ∀ a ∈ valsValues rows, a = v0 :=
  values_foldl_dictSet_const rows v0 [] (by simp) heq

theorem foldl_min_const {v0 : ℚ} {xs : List ℚ} (h : ∀ a ∈ xs, a = v0) :
    xs.foldl min v0 = v0 := by
  induction xs with
  | nil => rfl
  | cons y ys ih =>
    have hy : y = v0 := h y (List.mem_cons_self _ _)
    simp only [List.foldl_cons, hy, min_self]
    exact ih (fun a ha => h a (List.mem_cons_of_mem _ ha))

theorem foldl_max_const {v0 : ℚ} {xs : List ℚ} (h : ∀ a ∈ xs, a = v0) :
    xs.foldl max v0 = v0 := by
  induction xs with
  | nil => rfl
  | cons y ys ih =>
    have hy : y = v0 := h y (List.mem_cons_self _ _)
    simp only [List.foldl_cons, hy, max_self]
    exact ih (fun a ha => h a (List.mem_cons_of_mem _ ha))

theorem vminOf_const {l : List ℚ} {v0 : ℚ} (hne : l ≠ []) (h : ∀ a ∈ l, a = v0) :
    vminOf l = v0 := by
  cases l with
  | nil => exact absurd rfl hne
  | cons x xs =>
    have hx : x = v0 := h x (List.mem_cons_self _ _)
    show xs.foldl min x = v0
    rw [hx]
    exact foldl_min_const (fun a ha => h a (List.mem_cons_of_mem _ ha))

theorem vmaxOf_const {l : List ℚ} {v0 : ℚ} (hne : l ≠ []) (h : ∀ a ∈ l, a = v0) :
    vmaxOf l = v0 := by
  cases l with
  | nil => exact absurd rfl hne
  | cons x xs =>
    have hx : x = v0 := h x (List.mem_cons_self _ _)
    show xs.foldl max x = v0
    rw [hx]
    exact foldl_max_const (fun a ha => h a (List.mem_cons_of_mem _ ha))

theorem dictSet_ne_nil (d : List (String × ℚ)) (k : String) (v : ℚ) :
    dictSet d k v ≠ [] := by
  unfold dictSet
  split
  · next h =>
    intro hc
    cases d with
    | nil => simp at h
    | cons a t => simp at hc
  · intro hc
    have := congrArg List.length hc
    simp at this

theorem foldl_dictSet_ne_nil (rows : List MetricRow) :
    ∀ acc : List (String × ℚ), acc ≠ [] →
      rows.foldl (fun acc r => dictSet acc (to_st_nm r.state) (pyOrZero r.value)) acc ≠ [] := by
  induction rows with
  | nil => intro acc h; exact h
  | cons r rs ih =>
    intro acc h
    simp only [List.foldl_cons]
    exact ih _ (dictSet_ne_nil _ _ _)

theorem valsOf_ne_nil {rows : List MetricRow} (h : rows ≠ []) : valsOf rows ≠ [] := by
  cases rows with
  | nil => exact absurd rfl h
  | cons r rs =>
    unfold valsOf
    simp only [List.foldl_cons]
    exact foldl_dictSet_ne_nil rs _ (dictSet_ne_nil _ _ _)

theorem valsValues_ne_nil {rows : List MetricRow} (h : rows ≠ []) : valsValues rows ≠ [] := by
  unfold valsValues
  intro hc
  exact valsOf_ne_nil h (List.map_eq_nil_iff.1 hc)

/-- Claim C4 counterexample: with metricRows = {A:5} (all values equal)
and a geometry containing regions B and C absent from metricRows, the
features for B and C get height 200000 + (0-5)/1*700000 = -3300000, not
heightMin: the all-equal rule only holds for regions present in
metricRows. -/
theorem build_all_equal_heights_cex :
    (∀ r ∈ rowsA5, pyOrZero r.value = 5) ∧
    ∃ g ∈ (build_feature_collection geoABC rowsA5).features,
      featureHeight g = some (-3300000) ∧ ((-3300000 : ℚ) ≠ HEIGHT_MIN) := by
  have hvals : valsOf rowsA5 = [("A", 5)] := by decide
  have hvv : valsValues rowsA5 = [5] := by rw [valsValues, hvals]; rfl
  have hvmin : vminR rowsA5 = 5 := by rw [vminR, hvv]; rfl
  have hvmax : vmaxR rowsA5 = 5 := by rw [vmaxR, hvv]; rfl
  have hrng : rngR rowsA5 = 1 := by rw [rngR, hvmin, hvmax]; norm_num [pyOrOne]
  have hlook : (valsOf rowsA5).lookup (Feature.mk "B" [] 1).st_nm = none := by decide
  refine ⟨by decide, ?_⟩
  refine ⟨enrich_feature (valsOf rowsA5) (vminR rowsA5) (rngR rowsA5) ⟨"B", [], 1⟩, ?_, ?_, ?_⟩
  · exact List.mem_map_of_mem _ (by decide : (⟨"B", [], 1⟩ : Feature) ∈ geoABC)
  · rw [featureHeight_enrich, hlook, hvmin, hrng]
    norm_num [HEIGHT_MIN, HEIGHT_SPAN]
  · norm_num [HEIGHT_MIN]

/-- Claim C4 (amended): for every nonempty metricRows set in which all
values are equal (including the single-row case), every feature whose
region appears in metricRows has height exactly heightMin (200000), the
degenerate range being replaced by 1 so no division by zero occurs; a
geometry feature absent from metricRows instead gets metricValue 0 and
height 200000 - v0*700000 (see the counterexample), so the claim as
stated only holds when every geometry region appears in metricRows. -/
theorem build_all_equal_heights (geo : List Feature) (rows : List MetricRow) (v0 : ℚ)
    (hne : rows ≠ [])
    (heq : ∀ r ∈ rows, pyOrZero r.value = v0)
    (hcov : ∀ f ∈ geo, ((valsOf rows).lookup f.st_nm).isSome = true) :
    ∀ g ∈ (build_feature_collection geo rows).features, featureHeight g = some HEIGHT_MIN := by
  have hvals : ∀ a ∈ valsValues rows, a = v0 := mem_valsValues_const heq
  have hvmin : vminR rows = v0 := vminOf_const (valsValues_ne_nil hne) hvals
  have hvmax : vmaxR rows = v0 := vmaxOf_const (valsValues_ne_nil hne) hvals
  have hrng : rngR rows = 1 := by
    rw [rngR, hvmax, hvmin, sub_self]
    norm_num [pyOrOne]
  intro g hg
  obtain ⟨f, hf, rfl⟩ := mem_build hg
  rw [featureHeight_enrich]
  obtain ⟨w, hw⟩ := Option.isSome_iff_exists.1 (hcov f hf)
  have hwmem : w ∈ valsValues rows := List.mem_map_of_mem _ (lookup_mem hw)
  have hwv : w = v0 := hvals w hwmem
  rw [hw]
  simp only [Option.getD_some]
  rw [hwv, hvmin, hrng, sub_self]
  norm_num

/-- Witness for C4 (amended): a single-region geometry fully covered by a
one-row metric table with value 5. -/
theorem build_all_equal_heights_witness :
    (rowsA5 ≠ []) ∧ (∀ r ∈ rowsA5, pyOrZero r.value = 5) ∧
    (∀ f ∈ geoA, ((valsOf rowsA5).lookup f.st_nm).isSome = true) ∧
    ∀ g ∈ (build_feature_collection geoA rowsA5).features, featureHeight g = some HEIGHT_MIN :=
  ⟨by decide, by decide, by decide,
   build_all_equal_heights geoA rowsA5 5 (by decide) (by decide) (by decide)⟩

/-- Claim C5: for every boundary geometry and metricRows input,
`build_feature_collection` produces exactly one output feature per
geometry feature, positionally corresponding, carrying the region's
name and the looked-up metric value with default 0 — so every region
absent from metricRows gets metricValue 0. -/
theorem build_one_feature_per_region (geo : List Feature) (rows : List MetricRow) :
    (build_feature_collection geo rows).features.length = geo.length
    ∧ ∀ i : Nat, ∀ f, geo[i]? = some f →
        ∃ g, (build_feature_collection geo rows).features[i]? = some g
          ∧ g.st_nm = f.st_nm
          ∧ featureMetric g = some (((valsOf rows).lookup f.st_nm).getD 0)
          ∧ ((valsOf rows).lookup f.st_nm = none → featureMetric g = some 0) := by
  constructor
  · simp [build_feature_collection]
  · intro i f hf
    refine ⟨enrich_feature (valsOf rows) (vminR rows) (rngR rows) f, ?_, rfl,
      featureMetric_enrich _ _ _ _, ?_⟩
    · show (geo.map (enrich_feature (valsOf rows) (vminR rows) (rngR rows)))[i]? = _
      rw [List.getElem?_map, hf]
      rfl
    · intro hnone
      rw [featureMetric_enrich, hnone]
      rfl

/-- Witness for C5: the claim's 3-region scenario — geometry A,B,C with
metricRows covering only A: exactly 3 features, B and C with
metricValue 0. -/
theorem build_one_feature_per_region_witness :
    (build_feature_collection geoABC rowsA7).features.length = geoABC.length
    ∧ (∃ g, (build_feature_collection geoABC rowsA7).features[1]? = some g
        ∧ g.st_nm = "B" ∧ featureMetric g = some 0)
    ∧ (∃ g, (build_feature_collection geoABC rowsA7).features[2]? = some g
        ∧ g.st_nm = "C" ∧ featureMetric g = some 0)
    ∧ (∃ g, (build_feature_collection geoABC rowsA7).features[0]? = some g
        ∧ g.st_nm = "A" ∧ featureMetric g = some 7) := by
  refine ⟨(build_one_feature_per_region geoABC rowsA7).1, ?_, ?_, ?_⟩
  · obtain ⟨g, hg1, hg2, hg3, hg4⟩ :=
      (build_one_feature_per_region geoABC rowsA7).2 1 ⟨"B", [], 1⟩ (by decide)
    exact ⟨g, hg1, hg2, hg4 (by decide)⟩
  · obtain ⟨g, hg1, hg2, hg3, hg4⟩ :=
      (build_one_feature_per_region geoABC rowsA7).2 2 ⟨"C", [], 2⟩ (by decide)
    exact ⟨g, hg1, hg2, hg4 (by decide)⟩
  · obtain ⟨g, hg1, hg2, hg3, hg4⟩ :=
      (build_one_feature_per_region geoABC rowsA7).2 0 ⟨"A", [], 0⟩ (by decide)
    refine ⟨g, hg1, hg2, ?_⟩
    rw [hg3]
    decide

/-! ## KPI aggregation layer, app.py 93-117

A row of the `aggregated_transaction` / `map_user` tables, restricted to
the columns these queries read.  `SELECT SUM(col) ... WHERE ...` is
modelled by standard SQL semantics: the sum of the matching rows, or
NULL (`none`) when no row matches; the Python `row["x"] or 0` coercion
then turns NULL (and a zero sum) into the number 0. -/

structure TxnRow where
  state : String
  year : Int
  quarter : Int
  transaction_amount : ℚ
  transaction_count : Int
deriving DecidableEq

structure UserRow where
  state : String
  year : Int
  quarter : Int
  registered_users : Int
  app_opens : Int
deriving DecidableEq

/-- SQL `SUM` over a selected column: NULL on zero rows. -/
def sqlSumQ (l : List ℚ) : Option ℚ :=
  match l with
  | [] => none
  | _ :: _ => some l.sum

/-- SQL `SUM` over an integer column: NULL on zero rows. -/
def sqlSumZ (l : List Int) : Option Int :=
  match l with
  | [] => none
  | _ :: _ => some l.sum

/-- Python `float(row[c] or 0)`. -/
def pyFloatOrZero (v : Option ℚ) : ℚ :=
  match v with
  | none => 0
  | some x => if x = 0 then 0 else x

/-- Python `int(row[c] or 0)`. -/
def pyIntOrZero (v : Option Int) : Int :=
  match v with
  | none => 0
  | some x => if x = 0 then 0 else x

/-- The `WHERE year=%(y)s AND quarter=%(q)s` filter. -/
def txn_period (y q : Int) (r : TxnRow) : Bool := r.year == y && r.quarter == q

def user_period (y q : Int) (r : UserRow) : Bool := r.year == y && r.quarter == q

/-- `india_txn_kpis`, app.py 93-97. -/
def india_txn_kpis (tbl : List TxnRow) (y q : Int) : ℚ × Int :=
  let rows := tbl.filter (txn_period y q)
  (pyFloatOrZero (sqlSumQ (rows.map (fun r => r.transaction_amount))),
   pyIntOrZero (sqlSumZ (rows.map (fun r => r.transaction_count))))

/-- `india_user_kpis`, app.py 99-103. -/
def india_user_kpis (tbl : List UserRow) (y q : Int) : Int × Int :=
  let rows := tbl.filter (user_period y q)
  (pyIntOrZero (sqlSumZ (rows.map (fun r => r.registered_users))),
   pyIntOrZero (sqlSumZ (rows.map (fun r => r.app_opens))))

/-- `state_txn_kpis`, app.py 105-110. -/
def state_txn_kpis (tbl : List TxnRow) (s : String) (y q : Int) : ℚ × Int :=
  let rows := tbl.filter (fun r => r.state == s && txn_period y q r)
  (pyFloatOrZero (sqlSumQ (rows.map (fun r => r.transaction_amount))),
   pyIntOrZero (sqlSumZ (rows.map (fun r => r.transaction_count))))

/-- `state_user_kpis`, app.py 112-117. -/
def state_user_kpis (tbl : List UserRow) (s : String) (y q : Int) : Int × Int :=
  let rows := tbl.filter (fun r => r.state == s && user_period y q r)
  (pyIntOrZero (sqlSumZ (rows.map (fun r => r.registered_users))),
   pyIntOrZero (sqlSumZ (rows.map (fun r => r.app_opens))))

theorem filter_and_eq_nil {α : Type} (p q : α → Bool) (l : List α)
    (h : l.filter q = []) : l.filter (fun r => p r && q r) = [] := by
  rw [List.filter_eq_nil_iff] at h ⊢
  intro a ha
  simp only [Bool.and_eq_true, not_and]
  intro _
  exact h a ha

/-- Claim C7: for every year/quarter with zero matching rows, all four
KPI aggregates return the numeric value 0 for each metric — not an error
and not a missing-value marker — by coercing the NULL aggregate to 0. -/
theorem kpis_zero_on_empty_period (tt : List TxnRow) (ut : List UserRow) (y q : Int)
    (ht : tt.filter (txn_period y q) = [])
    (hu : ut.filter (user_period y q) = []) :
    india_txn_kpis tt y q = (0, 0)
    ∧ india_user_kpis ut y q = (0, 0)
    ∧ ∀ s : String, state_txn_kpis tt s y q = (0, 0) ∧ state_user_kpis ut s y q = (0, 0) := by
  refine ⟨?_, ?_, fun s => ⟨?_, ?_⟩⟩
  · unfold india_txn_kpis
    rw [ht]
    rfl
  · unfold india_user_kpis
    rw [hu]
    rfl
  · unfold state_txn_kpis
    rw [filter_and_eq_nil (fun r => r.state == s) (txn_period y q) tt ht]
    rfl
  · unfold state_user_kpis
    rw [filter_and_eq_nil (fun r => r.state == s) (user_period y q) ut hu]
    rfl

/-- Witness for C7: a concrete table holding only 2021 data, queried for
2022-Q1. -/
theorem kpis_zero_on_empty_period_witness :
    (([⟨"Karnataka", 2021, 1, 100, 5⟩] : List TxnRow).filter (txn_period 2022 1) = [])
    ∧ (([⟨"Karnataka", 2021, 1, 7, 9⟩] : List UserRow).filter (user_period 2022 1) = [])
    ∧ india_txn_kpis [⟨"Karnataka", 2021, 1, 100, 5⟩] 2022 1 = (0, 0)
    ∧ india_user_kpis [⟨"Karnataka", 2021, 1, 7, 9⟩] 2022 1 = (0, 0)
    ∧ state_txn_kpis [⟨"Karnataka", 2021, 1, 100, 5⟩] "Karnataka" 2022 1 = (0, 0)
    ∧ state_user_kpis [⟨"Karnataka", 2021, 1, 7, 9⟩] "Karnataka" 2022 1 = (0, 0) := by
  have h := kpis_zero_on_empty_period [⟨"Karnataka", 2021, 1, 100, 5⟩]
    [⟨"Karnataka", 2021, 1, 7, 9⟩] 2022 1 (by decide) (by decide)
  exact ⟨by decide, by decide, h.1, h.2.1, (h.2.2 "Karnataka").1, (h.2.2 "Karnataka").2⟩

/-! ## Active-state selection for the State dropdown, app.py 309-326 -/

/-- `df.sort_values("value", ascending=False).iloc[0]["state"]` for a
nonempty frame, `None` otherwise (app.py 315).  On value ties pandas'
unstable sort leaves the chosen row unspecified; the model returns the
first row attaining the maximum. -/
def default_state_of (df : List MetricRow) : Option String :=
  match df with
  | [] => none
  | r :: rs =>
    some ((rs.foldl (fun best cur => if best.value < cur.value then cur else best) r).state)

/-- app.py 321-324: `elif default_state and default_state in states:
idx = states.index(default_state); else: idx = 0 if states else 0`. -/
def fallback_index (default_state : Option String) (states : List String) : Nat :=
  match default_state with
  | some d => if d ≠ "" ∧ d ∈ states then states.indexOf d else 0
  | none => 0

/-- app.py 318-324: the dropdown index — the clicked state when present
in the list, else the fallback chain. -/
def select_state_index (preferred default_state : Option String)
    (states : List String) : Nat :=
  match preferred with
  | some p => if p ∈ states then states.indexOf p else fallback_index default_state states
  | none => fallback_index default_state states

theorem foldl_argmax_spec (rs : List MetricRow) :
    ∀ r0 : MetricRow,
      (rs.foldl (fun best cur => if best.value < cur.value then cur else best) r0 = r0 ∨
        rs.foldl (fun best cur => if best.value < cur.value then cur else best) r0 ∈ rs)
      ∧ r0.value ≤ (rs.foldl (fun best cur => if best.value < cur.value then cur else best) r0).value
      ∧ ∀ r2 ∈ rs,
          r2.value ≤ (rs.foldl (fun best cur => if best.value < cur.value then cur else best) r0).value := by
  induction rs with
  | nil => intro r0; exact ⟨Or.inl rfl, le_refl _, by simp⟩
  | cons c t ih =>
    intro r0
    simp only [List.foldl_cons]
    obtain ⟨hmem, hinit, hall⟩ := ih (if r0.value < c.value then c else r0)
    have hb1mem : (if r0.value < c.value then c else r0) = r0 ∨
        (if r0.value < c.value then c else r0) = c := by
      split
      · exact Or.inr rfl
      · exact Or.inl rfl
    have hr0b1 : r0.value ≤ (if r0.value < c.value then c else r0).value := by
      split
      · next hlt => exact le_of_lt hlt
      · exact le_refl _
    have hcb1 : c.value ≤ (if r0.value < c.value then c else r0).value := by
      split
      · exact le_refl _
      · next hlt => exact le_of_not_lt hlt
    refine ⟨?_, le_trans hr0b1 hinit, ?_⟩
    · rcases hmem with he | hm
      · rcases hb1mem with h1 | h1
        · rw [he, h1]; exact Or.inl rfl
        · rw [he, h1]; exact Or.inr (List.mem_cons_self _ _)
      · exact Or.inr (List.mem_cons_of_mem _ hm)
    · intro r2 hr2
      rcases List.mem_cons.1 hr2 with rfl | hm
      · exact le_trans hcb1 hinit
      · exact hall r2 hm

theorem default_state_of_spec {df : List MetricRow} {d : String}
    (h : default_state_of df = some d) :
    ∃ r ∈ df, r.state = d ∧ ∀ r2 ∈ df, r2.value ≤ r.value := by
  cases df with
  | nil => simp [default_state_of] at h
  | cons r rs =>
    simp only [default_state_of, Option.some.injEq] at h
    obtain ⟨hmem, hinit, hall⟩ := foldl_argmax_spec rs r
    refine ⟨rs.foldl (fun best cur => if best.value < cur.value then cur else best) r,
      ?_, h, ?_⟩
    · rcases hmem with he | hm
      · rw [he]; exact List.mem_cons_self _ _
      · exact List.mem_cons_of_mem _ hm
    · intro r2 hr2
      rcases List.mem_cons.1 hr2 with rfl | hm
      · exact hinit
      · exact hall r2 hm

theorem sorted_head_min {states : List String} (hs : List.Sorted (· ≤ ·) states)
    {m : String} (hm : states.head? = some m) : ∀ s ∈ states, m ≤ s := by
  cases states with
  | nil => simp at hm
  | cons a t =>
    cases hm
    intro s hs2
    rcases List.mem_cons.1 hs2 with rfl | hmem
    · exact le_refl _
    · exact (List.sorted_cons.1 hs).1 s hmem

/-- Claim C8: the dropdown index follows this exact fallback chain: the
clicked state when it is in the valid-region list; otherwise the region
with the highest metric value (the truthy `default_state`) when it is in
the list; otherwise index 0 — and since the list comes from an
`ORDER BY state` query, when it is sorted the region at index 0 is the
first in lexical order.  `default_state_of df` is indeed a maximal-value
row of `df`. -/
theorem select_state_fallback_chain (preferred default_state : Option String)
    (states : List String) :
    (∀ p, preferred = some p → p ∈ states →
      select_state_index preferred default_state states = states.indexOf p)
    ∧ (∀ d, (∀ p, preferred = some p → p ∉ states) → default_state = some d →
        d ≠ "" → d ∈ states →
        select_state_index preferred default_state states = states.indexOf d)
    ∧ ((∀ p, preferred = some p → p ∉ states) →
       (∀ d, default_state = some d → d = "" ∨ d ∉ states) →
       select_state_index preferred default_state states = 0)
    ∧ (∀ df : List MetricRow, ∀ d, default_state_of df = some d →
        ∃ r ∈ df, r.state = d ∧ ∀ r2 ∈ df, r2.value ≤ r.value)
    ∧ (List.Sorted (· ≤ ·) states → ∀ m, states.head? = some m → ∀ s ∈ states, m ≤ s) := by
  refine ⟨?_, ?_, ?_, fun df d h => default_state_of_spec h, fun hs m hm => sorted_head_min hs hm⟩
  · intro p hp hmem
    subst hp
    simp only [select_state_index]
    rw [if_pos hmem]
  · intro d hnp hd hne hmem
    cases preferred with
    | none =>
      subst hd
      simp only [select_state_index, fallback_index]
      rw [if_pos ⟨hne, hmem⟩]
    | some p =>
      subst hd
      simp only [select_state_index, fallback_index]
      rw [if_neg (hnp p rfl), if_pos ⟨hne, hmem⟩]
  · intro hnp hnd
    have hfall : fallback_index default_state states = 0 := by
      cases default_state with
      | none => rfl
      | some d =>
        simp only [fallback_index]
        rcases hnd d rfl with h1 | h1
        · rw [if_neg]
          intro hc
          exact hc.1 h1
        · rw [if_neg]
          intro hc
          exact h1 hc.2
    cases preferred with
    | none => exact hfall
    | some p =>
      simp only [select_state_index]
      rw [if_neg (hnp p rfl)]
      exact hfall

/-- Witness for C8: each branch of the chain at concrete inputs. -/
theorem select_state_fallback_chain_witness :
    (select_state_index (some "Kerala") (some "Goa") ["Goa", "Kerala"] = 1)
    ∧ (select_state_index (some "Assam") (some "Goa") ["Goa", "Kerala"] = 0)
    ∧ (select_state_index (some "Assam") (some "Assam") ["Goa", "Kerala"] = 0)
    ∧ (∃ r ∈ rowsAB, r.state = "B" ∧ ∀ r2 ∈ rowsAB, r2.value ≤ r.value)
    ∧ (∀ s ∈ ["Goa"], "Goa" ≤ s) := by
  refine ⟨?_, ?_, ?_, ?_, ?_⟩
  · rw [(select_state_fallback_chain (some "Kerala") (some "Goa") ["Goa", "Kerala"]).1
      "Kerala" rfl (by decide)]
    decide
  · rw [(select_state_fallback_chain (some "Assam") (some "Goa") ["Goa", "Kerala"]).2.1
      "Goa" (fun p hp => by cases hp; decide) rfl (by decide) (by decide)]
    decide
  · exact (select_state_fallback_chain (some "Assam") (some "Assam") ["Goa", "Kerala"]).2.2.1
      (fun p hp => by cases hp; decide) (fun d hd => by cases hd; decide)
  · exact (select_state_fallback_chain none none []).2.2.2.1 rowsAB "B" (by decide)
  · exact (select_state_fallback_chain none none ["Goa"]).2.2.2.2
      (by simp) "Goa" rfl

/-! ## Frame property of `build_feature_collection`, app.py 190-203

Store-passing embedding of the loop over `INDIA_GEOJSON["features"]`:
the heap of feature objects is a list indexed by references, and the
geometry is a list of references into it.  Each iteration reads the
referenced feature, allocates a fresh deep copy
(`g = json.loads(json.dumps(f))`) at a new reference, and the six
property writes hit only that fresh reference, which is collected into
`feats`.  An aliasing copy (`g = f`) would instead write through the
original reference. -/

def build_step (vals : List (String × ℚ)) (vmin rng : ℚ)
    (acc : List Feature × List Nat) (r : Nat) : List Feature × List Nat :=
  let f := acc.1.getD r ⟨"", [], 0⟩
  (acc.1 ++ [enrich_feature vals vmin rng f], acc.2 ++ [acc.1.length])

/-- `build_feature_collection` over the explicit store: returns the
final heap and the references of the produced features. -/
def build_feature_collection_st (store : List Feature) (geo_refs : List Nat)
    (rows : List MetricRow) : List Feature × List Nat :=
  geo_refs.foldl (build_step (valsOf rows) (vminR rows) (rngR rows)) (store, [])

theorem foldl_build_step_prefix (vals : List (String × ℚ)) (vmin rng : ℚ)
    (geo_refs : List Nat) :
    ∀ (store : List Feature) (fs : List Nat) (i : Nat), i < store.length →
      (geo_refs.foldl (build_step vals vmin rng) (store, fs)).1[i]? = store[i]? := by
  induction geo_refs with
  | nil => intro store fs i hi; rfl
  | cons r rs ih =>
    intro store fs i hi
    simp only [List.foldl_cons, build_step]
    rw [ih _ _ i (by simp; omega)]
    exact List.getElem?_append_left hi

/-- Claim C10: `build_feature_collection` does not mutate the shared
boundary geometry: every feature object of the original store is
unchanged after the call, because each output feature is built from a
deep copy allocated at a fresh reference. -/
theorem build_no_mutation (store : List Feature) (geo_refs : List Nat)
    (rows : List MetricRow) :
    ∀ i, i < store.length →
      (build_feature_collection_st store geo_refs rows).1[i]? = store[i]? := by
  intro i hi
  exact foldl_build_step_prefix (valsOf rows) (vminR rows) (rngR rows) geo_refs store [] i hi

/-- Witness for C10: the concrete three-feature store is untouched. -/
theorem build_no_mutation_witness :
    (0 < geoABC.length) ∧
    (build_feature_collection_st geoABC [0, 1, 2] rowsAB).1[0]? = geoABC[0]? :=
  ⟨by decide, build_no_mutation geoABC [0, 1, 2] rowsAB 0 (by decide)⟩
